import Mathlib

/-!
Verification of the kkpyui form/controller micro-framework (src/src/kkpyui.py).

Shallow embedding:
* an `Entry` widget is modelled by its key, current value, default and
  presetable flag (`EntryState`); a `Page` by its title and entry list; a
  `Form` by its page list.
* a Python dict built by successive assignment is modelled as an assoc list
  where the *last* binding wins (`dictGet`).
* `FormController` state is `CtrlState`; Tk threads are modelled by the
  booleans `threadExists` (`self.taskThread is not None`) and `threadAlive`
  (`self.taskThread.is_alive()`), plus a ghost counter `activeWorkers` of
  started-but-unfinished worker threads.
* the progress queue is a FIFO list of `Msg` triples; `WaitBar.poll` and
  `ProgressBar.poll` are embedded as drain functions; a Python exception
  (`NotImplementedError`) is an `Except.error`.
* the self-rescheduling `after` timers are modelled by the `rescheduled`
  flag of a poll result and by the `waitScheduled` flag of the controller.
-/

namespace Kkpyui

/-- Field values: integer, boolean, string, or string-list (floats in the
source are only used through the same get/set interface and are not needed
by any claim). -/
inductive Value where
  | int (n : Int)
  | bool (b : Bool)
  | str (s : String)
  | strList (l : List String)
deriving DecidableEq, Repr

/-- State of an `Entry` widget: `key`, `data` (current value), `default`,
`isPresetable` (kkpyui.py lines 371-409). -/
structure EntryState where
  key : String
  value : Value
  default : Value
  isPresetable : Bool
deriving DecidableEq, Repr

/-- State of a `Page`: its title and its child entries in creation order
(`pg.winfo_children()` returns them in that order). -/
structure PageState where
  title : String
  entries : List EntryState
deriving DecidableEq, Repr

/-- A Python dict built by successive assignment, looked up at `k`:
the last binding for `k` wins. -/
def dictGet : List (String × Value) → String → Option Value
  | [], _ => none
  | (k, v) :: rest, key =>
    match dictGet rest key with
    | some w => some w
    | none => if k = key then some v else none

/-- Entry.reset (line 402-403): set the widget back to its default. -/
def EntryState.reset (e : EntryState) : EntryState :=
  { e with value := e.default }

/-- FormController.update_model (lines 498-503): flatten every page's
entries into one key-value mapping. -/
def update_model (form : List PageState) : List (String × Value) :=
  (form.map (fun pg => pg.entries.map (fun e => (e.key, e.value)))).flatten

/-- FormController.save_preset (lines 524-535): snapshot only presetable
entries into a flat key-value mapping (the JSON write is outside the
embedding). -/
def save_preset (form : List PageState) : List (String × Value) :=
  (form.map (fun pg =>
    (pg.entries.filter (fun e => e.isPresetable)).map (fun e => (e.key, e.value)))).flatten

/-- One entry of FormController.load_preset's loop (lines 516-522): a key
present in the mapping overwrites the entry's value; the `KeyError` on a
missing key is caught and logged, leaving the entry unchanged. -/
def load_entry (config : List (String × Value)) (e : EntryState) : EntryState :=
  match dictGet config e.key with
  | some v => { e with value := v }
  | none => e

/-- FormController.load_preset (lines 508-522): apply the mapping to every
entry of every page, never failing. -/
def load_preset (config : List (String × Value)) (form : List PageState) :
    List PageState :=
  form.map (fun pg => { pg with entries := pg.entries.map (load_entry config) })

/-- FormController.on_reset (lines 590-597): reset every entry of every page
to its default. -/
def on_reset (form : List PageState) : List PageState :=
  form.map (fun pg => { pg with entries := pg.entries.map EntryState.reset })

/-- All field keys of the form, in traversal order. -/
def allKeys (form : List PageState) : List String :=
  (form.map (fun pg => pg.entries.map (fun e => e.key))).flatten

/-- Progress message: `(stage, progress, description)` as posted by
`set_progress` (line 494). -/
structure Msg where
  stage : String
  progress : Int
  description : String
deriving DecidableEq, Repr

/-- Indicator mode of the indeterminate bar: `bar.start()` puts it in the
active (animated) state, `bar.stop()` in the idle state. -/
inductive BarMode where
  | active
  | idle
deriving DecidableEq, Repr

/-- Dispatch of one message inside WaitBar.poll (lines 752-763):
`/start` activates the bar, `/stop` idles it, anything else raises
`NotImplementedError`. -/
def waitBar_step (_mode : BarMode) (m : Msg) : Except String BarMode :=
  if m.stage = "/start" then .ok .active
  else if m.stage = "/stop" then .ok .idle
  else .error ("Unexpected progress instruction: " ++ m.stage)

/-- Result of one WaitBar.poll invocation: the messages left in the queue,
the final bar mode, the messages consumed in consumption order, and whether
the poll rescheduled itself via `after`. -/
structure WaitPollOut where
  remaining : List Msg
  mode : BarMode
  processed : List Msg
  rescheduled : Bool
deriving DecidableEq, Repr

/-- WaitBar.poll (lines 744-764). The loop tests `queue.qsize()` first; on a
nonempty queue it then tests the stop event and returns (without consuming
and without rescheduling) when it is set; otherwise it consumes the head.
An empty queue falls through to `self.after(wait_ms, self.poll)`. -/
def waitBar_drain (stopSet : Bool) : BarMode → List Msg → Except String WaitPollOut
  | mode, [] => .ok ⟨[], mode, [], true⟩
  | mode, m :: rest =>
    if stopSet then .ok ⟨m :: rest, mode, [], false⟩
    else
      match waitBar_step mode m with
      | .ok mode2 =>
        match waitBar_drain stopSet mode2 rest with
        | .ok out => .ok ⟨out.remaining, out.mode, m :: out.processed, out.rescheduled⟩
        | .error e => .error e
      | .error e => .error e

/-- State of a WaitBar: its queue, the shared stop event, and the bar mode. -/
structure WaitBarState where
  queue : List Msg
  stopSet : Bool
  mode : BarMode
deriving DecidableEq, Repr

/-- One invocation of WaitBar.poll on the bar's state. -/
def waitBar_poll (s : WaitBarState) : Except String WaitPollOut :=
  waitBar_drain s.stopSet s.mode s.queue

/-- Visible state of the determinate ProgressBar: the displayed percentage
(`self.progress`) and the label text (`self.stage`). -/
structure ProgDisplay where
  progress : Int
  stageText : String
deriving DecidableEq, Repr

/-- Dispatch of one message inside ProgressBar.poll (lines 781-788): only
`/processing` updates the percentage; every message updates the label; no
stage is rejected. -/
def progressBar_step (d : ProgDisplay) (m : Msg) : ProgDisplay :=
  let d1 := if m.stage = "/processing" then { d with progress := m.progress } else d
  { d1 with stageText := m.description }

/-- ProgressBar.poll (lines 777-789): drain the whole queue (it never checks
the stop event), then reschedule. Returns the final display and the messages
consumed in consumption order. -/
def progressBar_drain (d : ProgDisplay) : List Msg → ProgDisplay × List Msg
  | [] => (d, [])
  | m :: rest =>
    let r := progressBar_drain (progressBar_step d m) rest
    (r.1, m :: r.2)

/-- One invocation of ProgressBar.poll: the ProgressBar always drains every
queued message and always reschedules itself. -/
def progressBar_poll (queue : List Msg) (d : ProgDisplay) :
    ProgDisplay × List Msg × Bool :=
  let r := progressBar_drain d queue
  (r.1, r.2, true)

/-- Successive display states of the ProgressBar while draining a queue,
one per consumed message. -/
def progressBar_trace (d : ProgDisplay) : List Msg → List ProgDisplay
  | [] => []
  | m :: rest =>
    let d2 := progressBar_step d m
    d2 :: progressBar_trace d2 rest

/-- FormController state (lines 491-496 and Globals, lines 13-16):
`threadExists` is `self.taskThread is not None`, `threadAlive` is
`self.taskThread.is_alive()`, `stopSet` is `Globals.taskStopEvent.is_set()`,
`waitScheduled` records a pending `wait_for_task` timer, `quitted` records
`self.form.master.quit()` having been called. `activeWorkers` is a ghost
count of worker threads that were started and have not finished. -/
structure CtrlState where
  threadExists : Bool
  threadAlive : Bool
  stopSet : Bool
  waitScheduled : Bool
  quitted : Bool
  form : List PageState
  model : List (String × Value)
  activeWorkers : Nat
deriving DecidableEq, Repr

/-- Controller as constructed (lines 491-496): no task thread yet
(`self.taskThread = None`), and `Globals.taskStopEvent` is a fresh
`threading.Event()`, whose internal flag starts false. -/
def initCtrl (form : List PageState) : CtrlState :=
  { threadExists := false
    threadAlive := false
    stopSet := false
    waitScheduled := false
    quitted := false
    form := form
    model := []
    activeWorkers := 0 }

/-- The busy test of on_submit / on_cancel / on_shutdown:
`self.taskThread and self.taskThread.is_alive()`. -/
def busy (s : CtrlState) : Bool :=
  s.threadExists && s.threadAlive

/-- FormController.on_submit (lines 599-611): while busy, return untouched;
otherwise snapshot the model, clear the stop event, and start a fresh worker
thread. -/
def on_submit (s : CtrlState) : CtrlState :=
  if busy s then s
  else
    { s with
      model := update_model s.form
      stopSet := false
      threadExists := true
      threadAlive := true
      activeWorkers := s.activeWorkers + 1 }

/-- FormController.on_cancel (lines 620-626): when a worker is alive, set the
stop event and schedule `wait_for_task`; otherwise do nothing. The call
returns immediately in both cases. -/
def on_cancel (s : CtrlState) : CtrlState :=
  if busy s then { s with stopSet := true, waitScheduled := true }
  else s

/-- One firing of the wait_for_task timer (lines 556-559): while the worker
thread is alive it reschedules itself (stays scheduled); once the thread has
exited it simply returns, ending the polling chain. -/
def wait_tick (s : CtrlState) : CtrlState :=
  if s.waitScheduled then
    if s.threadAlive then s else { s with waitScheduled := false }
  else s

/-- Exit of the worker thread: `run_task` returns (or raises), the thread
object stays (`taskThread` is not cleared) but `is_alive()` becomes false. -/
def finish_worker (s : CtrlState) : CtrlState :=
  if s.threadAlive then
    { s with threadAlive := false, activeWorkers := s.activeWorkers - 1 }
  else s

/-- FormController.on_shutdown (lines 646-665). `userDeclines` is true when
`prompt.warning(..., question=Keep waiting?)` returns true, i.e. the user
answers Yes ("wait for it to finish") and thereby declines the force-quit.
Returns whether the quit may proceed, together with the new state. -/
def on_shutdown (userDeclines : Bool) (s : CtrlState) : Bool × CtrlState :=
  if !(busy s) then (true, { s with stopSet := true })
  else if userDeclines then (false, s)
  else (true, { s with stopSet := true, waitScheduled := true })

/-- FormController.on_quit (lines 628-637): run on_shutdown; on refusal
return with nothing changed, otherwise quit the main loop. -/
def on_quit (userDeclines : Bool) (s : CtrlState) : CtrlState :=
  let r := on_shutdown userDeclines s
  if r.1 then { r.2 with quitted := true } else r.2

/-- Externally triggerable controller events, for traces. -/
inductive Event where
  | submit
  | cancel
  | finish
  | waitTick
  | quit (userDeclines : Bool)
  | reset
deriving DecidableEq, Repr

/-- Controller transition for one event. -/
def step (s : CtrlState) (e : Event) : CtrlState :=
  match e with
  | .submit => on_submit s
  | .cancel => on_cancel s
  | .finish => finish_worker s
  | .waitTick => wait_tick s
  | .quit d => on_quit d s
  | .reset => { s with form := on_reset s.form }

/-- Run of a controller over an event trace. -/
def run (s : CtrlState) (es : List Event) : CtrlState :=
  es.foldl step s

/-- Ghost invariant: the worker count equals one exactly while a live worker
thread is attached to the controller. -/
def workerInv (s : CtrlState) : Prop :=
  s.activeWorkers = (if busy s then 1 else 0)

/-- Every entry of every page holds its default value. -/
def allValuesDefault (form : List PageState) : Bool :=
  form.all (fun pg => pg.entries.all (fun e => decide (e.value = e.default)))

theorem workerInv_init (f : List PageState) : workerInv (initCtrl f) := by
  simp [workerInv, initCtrl, busy]

theorem workerInv_step (s : CtrlState) (e : Event) (h : workerInv s) :
    workerInv (step s e) := by
  cases e <;>
    simp only [step, on_submit, on_cancel, finish_worker, wait_tick, on_quit, on_shutdown,
      workerInv, busy] at h ⊢ <;>
    split_ifs at h ⊢ <;> simp_all

theorem workerInv_foldl (s : CtrlState) (h : workerInv s) (es : List Event) :
    workerInv (es.foldl step s) := by
  induction es generalizing s with
  | nil => exact h
  | cons e es ih => exact ih _ (workerInv_step s e h)

/-- C1: while a worker thread is alive, `on_submit` is a complete no-op
(no model snapshot, no stop-flag clear, no thread start), and along every
event trace from a fresh controller at most one worker is active at a
time. -/
theorem submit_busy_noop_single_worker (f : List PageState) (s : CtrlState)
    (es : List Event) (hb : busy s = true) :
    on_submit s = s ∧ (run (initCtrl f) es).activeWorkers ≤ 1 := by
  constructor
  · simp [on_submit, hb]
  · have h := workerInv_foldl (initCtrl f) (workerInv_init f) es
    rw [run] at *
    rw [workerInv] at h
    rw [h]
    split <;> omega

/-- Witness for C1 at a busy controller and a double-submit trace. -/
theorem submit_busy_noop_single_worker_witness :
    busy ⟨true, true, false, false, false, [], [], 1⟩ = true ∧
      (on_submit ⟨true, true, false, false, false, [], [], 1⟩
          = (⟨true, true, false, false, false, [], [], 1⟩ : CtrlState)
        ∧ (run (initCtrl []) [Event.submit, Event.submit]).activeWorkers ≤ 1) :=
  ⟨by decide,
   submit_busy_noop_single_worker [] ⟨true, true, false, false, false, [], [], 1⟩
     [Event.submit, Event.submit] (by decide)⟩

/-- C2: cancelling while a worker is alive sets the stop signal without
blocking the caller (the call returns with the worker still in whatever
state it was, a wait poll merely scheduled), and whenever a scheduled
`wait_for_task` tick stops rescheduling itself, the worker thread is no
longer alive. -/
theorem cancel_sets_stop_then_converges (s t : CtrlState) (hb : busy s = true)
    (hw : t.waitScheduled = true) (hconv : (wait_tick t).waitScheduled = false) :
    (on_cancel s).stopSet = true ∧ (on_cancel s).threadAlive = s.threadAlive
      ∧ (on_cancel s).waitScheduled = true ∧ t.threadAlive = false := by
  refine ⟨by simp [on_cancel, hb], by simp [on_cancel, hb], by simp [on_cancel, hb], ?_⟩
  cases hA : t.threadAlive with
  | false => rfl
  | true => simp [wait_tick, hw, hA] at hconv

/-- Witness for C2: a busy controller and a converged wait tick. -/
theorem cancel_sets_stop_then_converges_witness :
    busy ⟨true, true, false, false, false, [], [], 1⟩ = true
      ∧ (⟨true, false, true, true, false, [], [], 0⟩ : CtrlState).waitScheduled = true
      ∧ (wait_tick ⟨true, false, true, true, false, [], [], 0⟩).waitScheduled = false
      ∧ ((on_cancel ⟨true, true, false, false, false, [], [], 1⟩).stopSet = true
        ∧ (on_cancel ⟨true, true, false, false, false, [], [], 1⟩).threadAlive
            = (⟨true, true, false, false, false, [], [], 1⟩ : CtrlState).threadAlive
        ∧ (on_cancel ⟨true, true, false, false, false, [], [], 1⟩).waitScheduled = true
        ∧ (⟨true, false, true, true, false, [], [], 0⟩ : CtrlState).threadAlive = false) :=
  ⟨by decide, by decide, by decide,
   cancel_sets_stop_then_converges ⟨true, true, false, false, false, [], [], 1⟩
     ⟨true, false, true, true, false, [], [], 0⟩ (by decide) (by decide) (by decide)⟩

/-- C7: a quit request while a worker is alive that the user declines to
force (answering "keep waiting") leaves the controller state completely
unchanged: still running, stop signal untouched, worker untouched, main
loop not quit. -/
theorem quit_declined_leaves_state_unchanged (s : CtrlState) (hb : busy s = true) :
    on_quit true s = s := by
  simp [on_quit, on_shutdown, hb]

/-- Witness for C7 at a concrete running controller. -/
theorem quit_declined_leaves_state_unchanged_witness :
    busy ⟨true, true, false, false, false, [], [], 1⟩ = true
      ∧ on_quit true ⟨true, true, false, false, false, [], [], 1⟩
          = (⟨true, true, false, false, false, [], [], 1⟩ : CtrlState) :=
  ⟨by decide,
   quit_declined_leaves_state_unchanged ⟨true, true, false, false, false, [], [], 1⟩ (by decide)⟩

/-- C9: reset replaces every field's value with its registered default,
is idempotent, and as a controller event touches nothing but the form
(hence is independent of the run state). -/
theorem reset_defaults_idempotent_state_independent (form : List PageState)
    (s : CtrlState) :
    allValuesDefault (on_reset form) = true
      ∧ on_reset (on_reset form) = on_reset form
      ∧ step s .reset = { s with form := on_reset s.form } := by
  refine ⟨?_, ?_, rfl⟩
  · simp [allValuesDefault, on_reset, List.all_eq_true, EntryState.reset]
  · have h : EntryState.reset ∘ EntryState.reset = EntryState.reset := funext fun e => rfl
    simp [on_reset, List.map_map, h]

/-- C10: once the stop signal is set, a WaitBar poll invocation that finds a
queued message returns at once: nothing is consumed, the indicator is
untouched, and the poll does not reschedule itself, so the polling chain
ends until restarted externally. -/
theorem waitbar_poll_stopped_no_drain_no_reschedule (q : List Msg) (m : Msg)
    (mode : BarMode) :
    waitBar_poll ⟨m :: q, true, mode⟩ = .ok ⟨m :: q, mode, [], false⟩ := by
  simp [waitBar_poll, waitBar_drain]

/-- C6 counterexample: at controller construction the stop signal is unset —
`Globals.taskStopEvent = threading.Event()` starts with its internal flag
false and neither `Globals` nor `FormController.__init__` ever sets it —
refuting "set at controller construction"; moreover a cancel issued while no
worker is alive leaves it unset (refuting the unqualified "set on every
cancel"), and a quit the user aborts at the prompt leaves it unset
(refuting the unqualified "set on every quit"). -/
theorem stop_signal_unset_at_construction :
    (initCtrl []).stopSet = false
      ∧ (on_cancel (initCtrl [])).stopSet = false
      ∧ (on_quit true ⟨true, true, false, false, false, [], [], 1⟩).stopSet = false := by
  refine ⟨rfl, rfl, ?_⟩
  decide

/-- C6 (amended): the stop signal is unset at controller construction,
cleared at each task start (a submit honoured while not busy), set by every
cancel issued while a worker is alive, and set by every quit that proceeds
(one the user does not abort at the confirmation prompt). -/
theorem stop_signal_lifecycle (f : List PageState) (s t u : CtrlState) (d : Bool)
    (hns : busy s = false) (hb : busy t = true) (hq : (on_shutdown d u).1 = true) :
    (initCtrl f).stopSet = false
      ∧ (on_submit s).stopSet = false
      ∧ (on_cancel t).stopSet = true
      ∧ (on_shutdown d u).2.stopSet = true := by
  refine ⟨rfl, by simp [on_submit, hns], by simp [on_cancel, hb], ?_⟩
  rw [on_shutdown] at hq ⊢
  split_ifs at hq ⊢ <;> simp_all

/-- Witness for the amended C6 at concrete controller states. -/
theorem stop_signal_lifecycle_witness :
    busy (initCtrl []) = false
      ∧ busy ⟨true, true, false, false, false, [], [], 1⟩ = true
      ∧ (on_shutdown false (initCtrl [])).1 = true
      ∧ ((initCtrl []).stopSet = false
        ∧ (on_submit (initCtrl [])).stopSet = false
        ∧ (on_cancel ⟨true, true, false, false, false, [], [], 1⟩).stopSet = true
        ∧ (on_shutdown false (initCtrl [])).2.stopSet = true) :=
  ⟨by decide, by decide, by decide,
   stop_signal_lifecycle [] (initCtrl []) ⟨true, true, false, false, false, [], [], 1⟩
     (initCtrl []) false (by decide) (by decide) (by decide)⟩

/-- C3 counterexample: ProgressBar.poll consumes a message with the unknown
stage "/bogus" without raising anything — it merely updates the label and
reschedules — refuting "any other stage raises a fatal error" for this
poller. -/
theorem progressbar_unknown_stage_not_fatal :
    progressBar_poll [⟨"/bogus", 7, "oops"⟩] ⟨0, ""⟩
      = (⟨0, "oops"⟩, [⟨"/bogus", 7, "oops"⟩], true) := by decide

/-- C3 (amended): WaitBar.poll recognizes exactly "/start" (switch the
indicator to active) and "/stop" (switch it to idle) and raises
NotImplementedError on every other stage, including "/processing";
ProgressBar.poll sets the displayed percentage exactly on "/processing",
updates the label text on every message, and never raises on an
unrecognized stage. -/
theorem poll_stage_vocabulary (mode : BarMode) (d : ProgDisplay) (m : Msg) :
    waitBar_poll ⟨[m], false, mode⟩ =
      (if m.stage = "/start" then .ok ⟨[], .active, [m], true⟩
       else if m.stage = "/stop" then .ok ⟨[], .idle, [m], true⟩
       else .error ("Unexpected progress instruction: " ++ m.stage))
      ∧ progressBar_poll [m] d =
        (⟨if m.stage = "/processing" then m.progress else d.progress, m.description⟩,
          [m], true) := by
  constructor
  · by_cases h1 : m.stage = "/start"
    · simp [waitBar_poll, waitBar_drain, waitBar_step, h1]
    · by_cases h2 : m.stage = "/stop"
      · simp [waitBar_poll, waitBar_drain, waitBar_step, h1, h2]
      · simp [waitBar_poll, waitBar_drain, waitBar_step, h1, h2]
  · by_cases h : m.stage = "/processing"
    · simp [progressBar_poll, progressBar_drain, progressBar_step, h]
    · simp [progressBar_poll, progressBar_drain, progressBar_step, h]

/-- Helper: ProgressBar.poll consumes the queued messages in queue order. -/
theorem progressBar_processed_eq (q : List Msg) :
    ∀ d : ProgDisplay, (progressBar_drain d q).2 = q := by
  induction q with
  | nil => intro d; rfl
  | cons m rest ih => intro d; simp [progressBar_drain, ih]

/-- Helper: a successful WaitBar.poll consumes the queued messages in queue
order. -/
theorem waitBar_processed_eq (q : List Msg) :
    ∀ (mode : BarMode) (out : WaitPollOut),
      waitBar_drain false mode q = .ok out → out.processed = q := by
  induction q with
  | nil =>
    intro mode out hok
    simp only [waitBar_drain, Except.ok.injEq] at hok
    rw [← hok]
  | cons m rest ih =>
    intro mode out hok
    cases hstep : waitBar_step mode m with
    | error e => simp [waitBar_drain, hstep] at hok
    | ok mode2 =>
      cases hdrain : waitBar_drain false mode2 rest with
      | error e => simp [waitBar_drain, hstep, hdrain] at hok
      | ok o =>
        simp only [waitBar_drain, hstep, hdrain, Bool.false_eq_true, if_false,
          Except.ok.injEq] at hok
        rw [← hok]
        simp [ih mode2 o hdrain]

/-- C4 counterexample: posted into the indeterminate WaitBar (the poller the
claim cites), the example sequence does not drive the indicator through the
three states — the "/processing" message raises NotImplementedError. -/
theorem waitbar_example_sequence_raises :
    waitBar_poll ⟨[⟨"/start", 0, "a"⟩, ⟨"/processing", 50, "b"⟩, ⟨"/stop", 100, "c"⟩],
        false, .idle⟩
      = .error ("Unexpected progress instruction: " ++ "/processing") := rfl

/-- C4 (amended): both pollers consume queued messages in exactly the posted
FIFO order; the example sequence drives the determinate ProgressBar through
the display states (0,"a"), (50,"b"), (50,"c") in that order, while on the
indeterminate WaitBar it raises on the "/processing" message. -/
theorem fifo_consumption_order (q : List Msg) (d : ProgDisplay) (mode : BarMode)
    (out : WaitPollOut) (hok : waitBar_drain false mode q = .ok out) :
    (progressBar_drain d q).2 = q
      ∧ out.processed = q
      ∧ progressBar_trace ⟨0, ""⟩
          [⟨"/start", 0, "a"⟩, ⟨"/processing", 50, "b"⟩, ⟨"/stop", 100, "c"⟩]
          = [⟨0, "a"⟩, ⟨50, "b"⟩, ⟨50, "c"⟩] :=
  ⟨progressBar_processed_eq q d, waitBar_processed_eq q mode out hok, by decide⟩

/-- Witness for the amended C4 at a one-message queue. -/
theorem fifo_consumption_order_witness :
    waitBar_drain false BarMode.idle [⟨"/start", 0, "a"⟩]
        = .ok ⟨[], .active, [⟨"/start", 0, "a"⟩], true⟩
      ∧ ((progressBar_drain ⟨0, ""⟩ [⟨"/start", 0, "a"⟩]).2 = [⟨"/start", 0, "a"⟩]
        ∧ (⟨[], .active, [⟨"/start", 0, "a"⟩], true⟩ : WaitPollOut).processed
            = [⟨"/start", 0, "a"⟩]
        ∧ progressBar_trace ⟨0, ""⟩
            [⟨"/start", 0, "a"⟩, ⟨"/processing", 50, "b"⟩, ⟨"/stop", 100, "c"⟩]
            = [⟨0, "a"⟩, ⟨50, "b"⟩, ⟨50, "c"⟩]) :=
  ⟨rfl,
   fifo_consumption_order [⟨"/start", 0, "a"⟩] ⟨0, ""⟩ .idle
     ⟨[], .active, [⟨"/start", 0, "a"⟩], true⟩ rfl⟩

/-- C8: loading a mapping applies each present key's value to the matching
field, leaves a field whose key is missing fully unchanged, never fails, and
processes every field of every page (the result is field-for-field parallel
to the input form). -/
theorem load_preset_applies_present_skips_missing (config : List (String × Value))
    (form : List PageState) :
    List.Forall₂ (fun pg pg2 => pg2.title = pg.title ∧
        List.Forall₂ (fun e e2 =>
          e2.key = e.key ∧ e2.default = e.default ∧ e2.isPresetable = e.isPresetable
            ∧ e2.value = (dictGet config e.key).getD e.value
            ∧ (dictGet config e.key = none → e2 = e))
          pg.entries pg2.entries)
      form (load_preset config form) := by
  rw [load_preset, List.forall₂_map_right_iff, List.forall₂_same]
  intro pg _
  refine ⟨rfl, ?_⟩
  rw [List.forall₂_map_right_iff, List.forall₂_same]
  intro e _
  unfold load_entry
  cases h : dictGet config e.key <;> simp [h]

/-- All entries of the form in page-traversal order. -/
def entriesOf (form : List PageState) : List EntryState :=
  (form.map (fun pg => pg.entries)).flatten

/-- The flat key-value mapping of the presetable entries of an entry list. -/
def presetOf (L : List EntryState) : List (String × Value) :=
  (L.filter (fun e => e.isPresetable)).map (fun e => (e.key, e.value))

theorem presetOf_append (L M : List EntryState) :
    presetOf (L ++ M) = presetOf L ++ presetOf M := by
  simp [presetOf, List.filter_append]

theorem presetOf_cons (a : EntryState) (rest : List EntryState) :
    presetOf (a :: rest) =
      if a.isPresetable then (a.key, a.value) :: presetOf rest else presetOf rest := by
  by_cases hp : a.isPresetable <;> simp [presetOf, List.filter_cons, hp]

theorem entriesOf_cons (pg : PageState) (rest : List PageState) :
    entriesOf (pg :: rest) = pg.entries ++ entriesOf rest := rfl

theorem save_preset_cons (pg : PageState) (rest : List PageState) :
    save_preset (pg :: rest) = presetOf pg.entries ++ save_preset rest := rfl

/-- Against the flattened entry list, save_preset is exactly the presetable
key-value pairs in traversal order. -/
theorem save_preset_eq (form : List PageState) :
    save_preset form = presetOf (entriesOf form) := by
  induction form with
  | nil => rfl
  | cons pg rest ih => rw [save_preset_cons, entriesOf_cons, presetOf_append, ih]

theorem allKeys_eq (form : List PageState) :
    allKeys form = (entriesOf form).map (fun e => e.key) := by
  simp only [allKeys, entriesOf, List.map_flatten, List.map_map]
  rfl

theorem dictGet_eq_none_of_not_mem (l : List (String × Value)) (k : String)
    (h : k ∉ l.map Prod.fst) : dictGet l k = none := by
  induction l with
  | nil => rfl
  | cons p rest ih =>
    obtain ⟨a, v⟩ := p
    simp only [List.map_cons, List.mem_cons] at h
    push_neg at h
    rw [dictGet, ih h.2]
    exact if_neg (fun hh => h.1 hh.symm)

theorem presetOf_keys_subset (L : List EntryState) :
    ((presetOf L).map Prod.fst) ⊆ L.map (fun e => e.key) := by
  intro k hk
  simp only [presetOf, List.map_map, List.mem_map, Function.comp] at hk
  obtain ⟨e, he, rfl⟩ := hk
  exact List.mem_map.mpr ⟨e, List.mem_of_mem_filter he, rfl⟩

/-- Looking an entry's key up in the saved preset of a duplicate-free form
finds exactly its saved value when the entry is presetable, and nothing
otherwise. -/
theorem dictGet_presetOf (L : List EntryState) (e : EntryState)
    (he : e ∈ L) (hnd : (L.map (fun x => x.key)).Nodup) :
    dictGet (presetOf L) e.key = if e.isPresetable then some e.value else none := by
  induction L with
  | nil => cases he
  | cons a rest ih =>
    simp only [List.map_cons, List.nodup_cons] at hnd
    obtain ⟨hka, hndr⟩ := hnd
    rcases List.mem_cons.mp he with rfl | hmem
    · have hnone : dictGet (presetOf rest) e.key = none := by
        apply dictGet_eq_none_of_not_mem
        intro hk
        exact hka (presetOf_keys_subset rest hk)
      by_cases hp : e.isPresetable
      · rw [presetOf_cons, if_pos hp, dictGet, hnone]
        simp [hp]
      · rw [presetOf_cons, if_neg hp, hnone, if_neg hp]
    · have hne : a.key ≠ e.key := by
        intro hh
        exact hka (hh ▸ List.mem_map.mpr ⟨e, hmem, rfl⟩)
      have ih' := ih hmem hndr
      by_cases hp : a.isPresetable
      · rw [presetOf_cons, if_pos hp, dictGet, ih']
        by_cases hep : e.isPresetable <;> simp [hep, hne]
      · rw [presetOf_cons, if_neg hp]
        exact ih'

/-- C5: save_preset writes out exactly the key-value pairs of the fields
marked presetable, and loading that mapping onto a freshly reset form puts
every presetable field back to the exact persisted value (non-presetable
fields stay at their defaults), provided the form's keys are
duplicate-free. -/
theorem preset_save_load_roundtrip (form : List PageState)
    (hnd : (allKeys form).Nodup) :
    save_preset form = presetOf (entriesOf form)
      ∧ load_preset (save_preset form) (on_reset form)
          = form.map (fun pg => { pg with entries := pg.entries.map (fun e =>
              { e with value := if e.isPresetable then e.value else e.default }) }) := by
  refine ⟨save_preset_eq form, ?_⟩
  have hkeys : ((entriesOf form).map (fun e => e.key)).Nodup := by
    rw [← allKeys_eq]; exact hnd
  unfold load_preset on_reset
  rw [List.map_map]
  apply List.map_congr_left
  intro pg hpg
  simp only [Function.comp_apply]
  congr 1
  rw [List.map_map]
  apply List.map_congr_left
  intro e he
  have hmem : e ∈ entriesOf form := by
    rw [entriesOf, List.mem_flatten]
    exact ⟨pg.entries, List.mem_map.mpr ⟨pg, hpg, rfl⟩, he⟩
  have hg := dictGet_presetOf (entriesOf form) e hmem hkeys
  rw [save_preset_eq]
  simp only [Function.comp_apply, load_entry, EntryState.reset]
  by_cases hp : e.isPresetable <;> simp [hp] at hg ⊢ <;> rw [hg]

/-- A concrete three-field, two-page form with duplicate-free keys. -/
def demoForm : List PageState :=
  [⟨"Main", [⟨"alpha", .int 3, .int 0, true⟩, ⟨"beta", .str "x", .str "", false⟩]⟩,
   ⟨"Extra", [⟨"gamma", .bool true, .bool false, true⟩]⟩]

/-- Witness for C5 at the concrete demo form. -/
theorem preset_save_load_roundtrip_witness :
    (allKeys demoForm).Nodup
      ∧ (save_preset demoForm = presetOf (entriesOf demoForm)
        ∧ load_preset (save_preset demoForm) (on_reset demoForm)
            = demoForm.map (fun pg => { pg with entries := pg.entries.map (fun e =>
                { e with value := if e.isPresetable then e.value else e.default }) })) :=
  ⟨by decide, preset_save_load_roundtrip demoForm (by decide)⟩

end Kkpyui
